import Mathlib

/-!
Verification of the Sanity-backed portfolio site's server-side helpers.

This file gives a shallow embedding in Lean of the parts of the
repository that its specification talks about:

* the cache-revalidation webhook handler (`app/api/revalidate/route.ts`),
  modelled as a pure function from the parse outcome of the request
  (secret configured?, signature valid?, parsed body) to the response
  together with the trace of `revalidateTag` / `revalidatePath` calls;
* the image-dimension extractor (`sanity/lib/image.ts`), modelled over
  strings as lists of characters, with JavaScript `NaN` rendered as
  `Option.none` and number arithmetic rendered exactly (IEEE rounding is
  outside the model);
* the `sanityFetch` wrapper (`sanity/lib/client.ts`), modelled over an
  abstract underlying client;
* the GROQ queries `adjacentProjectsQuery` and `blogPostsQuery`
  (`sanity/lib/queries.ts`), modelled as list filtering, a stable sort
  (GROQ's deterministic engine ordering) and slicing over the dataset.

Theorems named `claim_*` settle the corresponding specification claims;
`*_witness` instantiates a hypothesis-bearing theorem at concrete input,
and `*_cex` exhibits a concrete counterexample.
-/

namespace Portfolio

/-! ### Webhook revalidation handler — `app/api/revalidate/route.ts` -/

/-- Record of one cache-invalidation side effect performed by the handler:
`revalidateTag t`, `revalidatePath p`, or `revalidatePath p 'layout'`. -/
inductive RevalidateCall where
  | tag : String → RevalidateCall
  | path : String → RevalidateCall
  | layout : String → RevalidateCall
deriving DecidableEq, Repr

/-- Model of the `slug` object of the webhook payload (`{ current?: string }`). -/
structure SanitySlug where
  current : Option String
deriving DecidableEq, Repr

/-- Model of the `WebhookPayload` type of the route:
`{ _type: string, _id?: string, slug?: { current?: string } }`. -/
structure WebhookPayload where
  _type : String
  _id : Option String
  slug : Option SanitySlug
deriving DecidableEq, Repr

/-- Model of the HTTP response together with the trace of invalidation
calls. For the error responses (status 500/401/400) the route performs no
invalidation, so `tags`, `paths` and `calls` are empty and `revalidated`
is false. -/
structure WebhookResponse where
  status : Nat
  revalidated : Bool
  tags : List String
  paths : List String
  calls : List RevalidateCall
deriving DecidableEq, Repr

/-- The `documentTypeToTags` record of the route, as an association list. -/
def documentTypeToTagsList : List (String × List String) :=
  [("homepage", ["homepage"]),
   ("aboutPage", ["aboutPage"]),
   ("contactPage", ["contactPage"]),
   ("siteSettings", ["siteSettings"]),
   ("navigation", ["navigation"]),
   ("blogPost", ["blogPost"]),
   ("project", ["project"]),
   ("popupContent", ["popupContent"])]

/-- The `documentTypeToPath` record of the route (detail-page base paths). -/
def documentTypeToPathList : List (String × String) :=
  [("blogPost", "/blog"), ("project", "/projects")]

/-- The `singletonPaths` record of the route. -/
def singletonPathsList : List (String × String) :=
  [("homepage", "/"), ("aboutPage", "/about"), ("contactPage", "/contact")]

/-- Tags pushed for a document type: the table entry when present,
otherwise the type name itself (the route's unknown-type fallback). -/
def tagsFor (t : String) : List String :=
  (documentTypeToTagsList.lookup t).getD [t]

/-- JavaScript truthiness of `body.slug?.current`: the slug string when the
slug object, its `current` field, and a nonempty value are all present. -/
def slugCurrentOf (b : WebhookPayload) : Option String :=
  match b.slug with
  | none => none
  | some sl =>
    match sl.current with
    | none => none
    | some c => if c = "" then none else some c

/-- Detail-page paths pushed by the route: when `slug?.current` is truthy
and the type has a detail base path, the single path `{base}/{slug}`. -/
def detailPathsOf (t : String) (c? : Option String) : List String :=
  match c? with
  | none => []
  | some c =>
    match documentTypeToPathList.lookup t with
    | none => []
    | some base => [base ++ "/" ++ c]

/-- Singleton-page paths pushed by the route. -/
def singletonPathsOf (t : String) : List String :=
  (singletonPathsList.lookup t).toList

/-- Whether the type triggers whole-layout revalidation. -/
def isLayoutType (t : String) : Bool :=
  t = "siteSettings" || t = "navigation"

/-- Layout entries pushed to the response `paths` array. -/
def layoutPathsOf (t : String) : List String :=
  if isLayoutType t then ["/ (layout)"] else []

/-- Listing-page paths pushed for collection types (blog posts and
projects also revalidate their listing page and the homepage). -/
def listingPathsOf (t : String) : List String :=
  (if t = "blogPost" then ["/blog", "/"] else []) ++
    (if t = "project" then ["/projects", "/"] else [])

/-- The success (status 200) branch of the route, for a payload that
passed the secret, signature and `_type` checks. -/
def successResponse (b : WebhookPayload) : WebhookResponse :=
  let t := b._type
  let tags := tagsFor t
  let detail := detailPathsOf t (slugCurrentOf b)
  let paths := detail ++ singletonPathsOf t ++ layoutPathsOf t ++ listingPathsOf t
  let calls :=
    tags.map RevalidateCall.tag ++
    detail.map RevalidateCall.path ++
    (singletonPathsOf t).map RevalidateCall.path ++
    (if isLayoutType t then [RevalidateCall.layout "/"] else []) ++
    (listingPathsOf t).map RevalidateCall.path
  ⟨200, true, tags, paths, calls⟩

/-- Model of the `POST` handler, as a function of the parse outcome:
whether `SANITY_REVALIDATE_SECRET` is configured, whether `parseBody`
judged the signature valid, and the parsed body (if any). The guard on
the body mirrors the JavaScript falsiness test `!body?._type`: a missing
body, a missing `_type`, and an empty-string `_type` all yield 400. -/
def revalidatePOST (secretConfigured isValidSignature : Bool)
    (body : Option WebhookPayload) : WebhookResponse :=
  if secretConfigured = false then ⟨500, false, [], [], []⟩
  else if isValidSignature = false then ⟨401, false, [], [], []⟩
  else
    match body with
    | none => ⟨400, false, [], [], []⟩
    | some b => if b._type = "" then ⟨400, false, [], [], []⟩ else successResponse b

/-! ### Image dimension extraction — `sanity/lib/image.ts` -/

/-- Model of the nested `asset` object carrying the raw reference token. -/
structure ImageAsset where
  _ref : Option String
deriving DecidableEq, Repr

/-- Model of the image argument of `getImageDimensions`
(`SanityImageSource & { asset?: { _ref?: string } }`). -/
structure ImageSource where
  asset : Option ImageAsset
deriving DecidableEq, Repr

/-- Result record of `getImageDimensions`. JavaScript numbers are modelled
exactly; the `aspectRatio` field is `Option ℚ`, with `none` standing for
the IEEE `NaN` that the code can produce by dividing an unparsable width
by a parsed nonzero height. -/
structure Dimensions where
  width : Nat
  height : Nat
  aspectRatio : Option ℚ
deriving DecidableEq, Repr

/-- JavaScript `String.prototype.split` with a one-character separator,
over strings as lists of characters. Splitting the empty string yields
one empty field, and separators at the edges yield empty fields, exactly
as in JavaScript. -/
def splitOnChar (sep : Char) : List Char → List (List Char)
  | [] => [[]]
  | a :: rest =>
    let r := splitOnChar sep rest
    if a = sep then [] :: r
    else
      match r with
      | [] => [[a]]
      | h :: t => (a :: h) :: t

/-- Numeric value of a list of decimal digits, most significant first. -/
def digitsToNat (l : List Char) : Nat :=
  l.foldl (fun n c => n * 10 + (c.toNat - 48)) 0

/-- Model of JavaScript `Number(...)` on the strings that can reach it
here (fields of a dash-free, `x`-free token segment): the empty string
converts to `0`, a string of decimal digits to its value, and anything
else to `NaN`, modelled as `none`. -/
def jsNumber (l : List Char) : Option Nat :=
  if l = [] then some 0
  else if l.all Char.isDigit then some (digitsToNat l) else none

/-- Parsing stage of `getImageDimensions` on the selected `dimensions`
segment: `dimensions.split('x').map(Number)` destructured into `width`
and `height` (a missing element, JavaScript `undefined`, behaves like
`NaN` in every subsequent use and is likewise modelled as `none`), then
the record `{width: width || 0, height: height || 0, aspectRatio:
height ? width / height : 1}`. -/
def dimsOfToken (dims : List Char) : Dimensions :=
  let ds := splitOnChar 'x' dims
  let w? := ds[0]?.bind jsNumber
  let h? := ds[1]?.bind jsNumber
  ⟨w?.getD 0, h?.getD 0,
    match h? with
    | none => some 1
    | some h =>
      if h = 0 then some 1
      else
        match w? with
        | none => none
        | some w => some ((w : ℚ) / (h : ℚ))⟩

/-- Segment-selection stage of `getImageDimensions` on the characters of
the reference token: the falsy guard on the reference itself, then
`ref.split('-')[2]` with its falsy guard (`undefined` or empty). -/
def dimsOfRef (refChars : List Char) : Dimensions :=
  if refChars = [] then ⟨0, 0, some 1⟩
  else
    let parts := splitOnChar '-' refChars
    match parts[2]? with
    | none => ⟨0, 0, some 1⟩
    | some dims => if dims = [] then ⟨0, 0, some 1⟩ else dimsOfToken dims

/-- Model of `getImageDimensions`: the falsy guard on
`image?.asset?._ref` (missing object, missing asset, missing or empty
reference), then segment selection and parsing on the characters of the
reference. -/
def getImageDimensions (image : Option ImageSource) : Dimensions :=
  match image with
  | none => ⟨0, 0, some 1⟩
  | some img =>
    match img.asset with
    | none => ⟨0, 0, some 1⟩
    | some a =>
      match a._ref with
      | none => ⟨0, 0, some 1⟩
      | some ref => dimsOfRef ref.data

/-! ### `sanityFetch` wrapper — `sanity/lib/client.ts` -/

/-- GROQ query parameters, modelled as a name/value association list. -/
abbrev QueryParams := List (String × String)

/-- The Next.js fetch options that `sanityFetch` forwards to the client:
`revalidate` is either a freshness window in seconds or `false` (never
auto-expire), modelled by `Option Nat` with `none` for `false`. -/
structure FetchOptions where
  revalidate : Option Nat
  tags : List String
deriving DecidableEq, Repr

/-- Argument object of `sanityFetch`; `none` in an optional field means
the caller omitted it, triggering the source's default (`{}`, `60`, `[]`). -/
structure SanityFetchArgs where
  query : String
  params : Option QueryParams
  revalidate : Option (Option Nat)
  tags : Option (List String)

/-- Model of `sanityFetch`, parametrised by the underlying `client.fetch`,
an arbitrary function from query, parameters and options to a result or a
failure. The wrapper fills in the defaulted fields and forwards. -/
def sanityFetch {T : Type} (clientFetch : String → QueryParams → FetchOptions → Except String T)
    (a : SanityFetchArgs) : Except String T :=
  clientFetch a.query (a.params.getD []) ⟨a.revalidate.getD (some 60), a.tags.getD []⟩

/-! ### GROQ queries — `sanity/lib/queries.ts` -/

/-- Model of a `project` document, restricted to the fields the adjacency
query inspects (`slug.current` and `date`, an ISO date string whose
lexicographic order is chronological order). -/
structure Project where
  slug : String
  date : String
deriving DecidableEq, Repr

/-- Model of a `blogPost` document, restricted to the field the listing
query orders by. -/
structure BlogPost where
  slug : String
  publishedAt : String
deriving DecidableEq, Repr

/-- GROQ's string comparison: strict lexicographic order on the character
sequences (for ISO dates this is chronological order). Stated over
`String.data` so that it is kernel-computable. -/
def dateLt (a b : String) : Prop := a.data < b.data

/-- Reflexive closure of `dateLt`, the order the sorts are stated in. -/
def dateLe (a b : String) : Prop := a.data ≤ b.data

instance : DecidableRel dateLt := fun a b => inferInstanceAs (Decidable (a.data < b.data))
instance : DecidableRel dateLe := fun a b => inferInstanceAs (Decidable (a.data ≤ b.data))

/-- Ascending date order on projects, the `order(date asc)` comparator. -/
def projAsc (a b : Project) : Prop := dateLe a.date b.date

/-- Descending date order on projects, the `order(date desc)` comparator. -/
def projDesc (a b : Project) : Prop := dateLe b.date a.date

/-- Descending publish order on blog posts, `order(publishedAt desc)`. -/
def postDesc (a b : BlogPost) : Prop := dateLe b.publishedAt a.publishedAt

instance : DecidableRel projAsc := fun a b => inferInstanceAs (Decidable (dateLe a.date b.date))
instance : DecidableRel projDesc := fun a b => inferInstanceAs (Decidable (dateLe b.date a.date))
instance : DecidableRel postDesc := fun a b => inferInstanceAs (Decidable (dateLe b.publishedAt a.publishedAt))

instance : IsTotal Project projAsc := ⟨fun a b => le_total a.date.data b.date.data⟩
instance : IsTrans Project projAsc := ⟨fun _ _ _ h h' => le_trans h h'⟩
instance : IsTotal Project projDesc := ⟨fun a b => le_total b.date.data a.date.data⟩
instance : IsTrans Project projDesc := ⟨fun _ _ _ h h' => le_trans h' h⟩
instance : IsTotal BlogPost postDesc := ⟨fun a b => le_total b.publishedAt.data a.publishedAt.data⟩
instance : IsTrans BlogPost postDesc := ⟨fun _ _ _ h h' => le_trans h' h⟩

/-- Model of `adjacentProjectsQuery` over a dataset given in the engine's
stable base order. `previous` is `*[_type == "project" && date > $date] |
order(date asc)[0]`; `next` is `*[_type == "project" && date < $date &&
slug.current != $slug] | order(date desc)[0]`. Note that the `$slug`
parameter occurs only in the `next` filter, exactly as in the source. -/
def adjacentProjects (ds : List Project) (date slug : String) :
    Option Project × Option Project :=
  (((ds.filter fun p => dateLt date p.date).insertionSort projAsc).head?,
   ((ds.filter fun p => dateLt p.date date ∧ p.slug ≠ slug).insertionSort projDesc).head?)

/-- Model of `blogPostsQuery` over the dataset's blog posts in stable base
order: `*[_type == "blogPost"] | order(publishedAt desc)[$start...$stop]`,
the half-open zero-indexed slice of the descending-ordered list. -/
def blogPosts (ds : List BlogPost) (start stop : Nat) : List BlogPost :=
  ((ds.insertionSort postDesc).drop start).take (stop - start)

/-! ### Helper lemmas about the webhook tables -/

/-- Every entry of the `documentTypeToTags` table is the singleton of its
own key, so the table lookup followed by the unknown-type fallback always
yields the singleton of the type name. -/
theorem tagsFor_self (t : String) : tagsFor t = [t] := by
  unfold tagsFor documentTypeToTagsList
  simp only [List.lookup]
  repeat' split
  all_goals simp_all

/-- Types without a detail base path contribute no detail page, whatever
the slug is. -/
theorem detailPathsOf_eq_nil {t : String} (c? : Option String)
    (h : documentTypeToPathList.lookup t = none) : detailPathsOf t c? = [] := by
  cases c? <;> simp [detailPathsOf, h]

/-! ### Claims about the webhook handler -/

/-- Claim C1: every POST with the secret configured, a valid signature and
body `{_type: "blogPost", slug: {current: "my-post"}}` (any `_id`) gets a
200 response whose `tags` array equals `["blogPost"]` and whose `paths`
array includes `/blog/my-post`, `/blog` and `/`. -/
theorem claim_C1_blogPost_revalidation (i : Option String) :
    (revalidatePOST true true (some ⟨"blogPost", i, some ⟨some "my-post"⟩⟩)).status = 200 ∧
    (revalidatePOST true true (some ⟨"blogPost", i, some ⟨some "my-post"⟩⟩)).tags = ["blogPost"] ∧
    "/blog/my-post" ∈ (revalidatePOST true true (some ⟨"blogPost", i, some ⟨some "my-post"⟩⟩)).paths ∧
    "/blog" ∈ (revalidatePOST true true (some ⟨"blogPost", i, some ⟨some "my-post"⟩⟩)).paths ∧
    "/" ∈ (revalidatePOST true true (some ⟨"blogPost", i, some ⟨some "my-post"⟩⟩)).paths := by
  refine ⟨rfl, rfl, ?_, ?_, ?_⟩
  · show "/blog/my-post" ∈ ["/blog/my-post", "/blog", "/"]
    decide
  · show "/blog" ∈ ["/blog/my-post", "/blog", "/"]
    decide
  · show "/" ∈ ["/blog/my-post", "/blog", "/"]
    decide

/-- Claim C2, counterexample to the original wording: the payload
`{_type: ""}` carries the `_type` field, so by the claim the response
ought to be 200, yet the route's falsiness test `!body?._type` rejects
the empty string with a 400. -/
theorem claim_C2_cex :
    (revalidatePOST true true (some ⟨"", none, none⟩)).status = 400 ∧
    ¬ (revalidatePOST true true (some ⟨"", none, none⟩)).status = 200 := by
  decide

/-- Claim C2 (amended): the response status is decided in order — 500 when
the secret is not configured, else 401 on an invalid signature with no
invalidation at all (tags, paths and the call trace stay empty), else 400
when the body is absent or its `_type` is missing-or-empty, else 200. -/
theorem claim_C2_status_order (sc sig : Bool) (b : Option WebhookPayload) :
    (sc = false → revalidatePOST sc sig b = ⟨500, false, [], [], []⟩) ∧
    (sc = true → sig = false → revalidatePOST sc sig b = ⟨401, false, [], [], []⟩) ∧
    (sc = true → sig = true → (b = none ∨ ∃ p, b = some p ∧ p._type = "") →
      revalidatePOST sc sig b = ⟨400, false, [], [], []⟩) ∧
    (sc = true → sig = true → ∀ p, b = some p → p._type ≠ "" →
      (revalidatePOST sc sig b).status = 200) := by
  refine ⟨?_, ?_, ?_, ?_⟩
  · rintro rfl; rfl
  · rintro rfl rfl; rfl
  · rintro rfl rfl (rfl | ⟨p, rfl, hp⟩)
    · rfl
    · simp [revalidatePOST, hp]
  · rintro rfl rfl p rfl hp
    simp [revalidatePOST, hp, successResponse]

/-- Claim C2, witness: the amended theorem applied to a concrete invalid
signature yields the 401 response with empty tags, paths and call trace. -/
theorem claim_C2_witness :
    revalidatePOST true false (some ⟨"blogPost", none, none⟩) = ⟨401, false, [], [], []⟩ :=
  (claim_C2_status_order true false (some ⟨"blogPost", none, none⟩)).2.1 rfl rfl

/-- Claim C3: a valid-signature POST whose (nonempty) `_type` appears in
none of the tables — the tag table, the detail-path table and the
singleton-path table — gets a 200 response whose tags are exactly
`[_type]` (fallback to the type name) and whose paths are empty; the only
invalidation performed is the one fallback tag bust. -/
theorem claim_C3_unknown_type (t : String) (p : WebhookPayload) (hp : p._type = t)
    (htags : documentTypeToTagsList.lookup t = none)
    (hdetail : documentTypeToPathList.lookup t = none)
    (hsingle : singletonPathsList.lookup t = none)
    (hne : t ≠ "") :
    revalidatePOST true true (some p) = ⟨200, true, [t], [], [RevalidateCall.tag t]⟩ := by
  have h1 : t ≠ "siteSettings" := by rintro rfl; revert htags; decide
  have h2 : t ≠ "navigation" := by rintro rfl; revert htags; decide
  have h3 : t ≠ "blogPost" := by rintro rfl; revert hdetail; decide
  have h4 : t ≠ "project" := by rintro rfl; revert hdetail; decide
  have hne' : p._type ≠ "" := by rw [hp]; exact hne
  simp [revalidatePOST, hne', successResponse, hp, tagsFor, htags,
    detailPathsOf_eq_nil _ hdetail, singletonPathsOf, hsingle,
    layoutPathsOf, isLayoutType, h1, h2, listingPathsOf, h3, h4, hne]

/-- Claim C3, witness: the type `unknownType` is in no table; its 200
response carries exactly the fallback tag and no paths. -/
theorem claim_C3_witness :
    revalidatePOST true true (some ⟨"unknownType", none, none⟩) =
      ⟨200, true, ["unknownType"], [], [RevalidateCall.tag "unknownType"]⟩ :=
  claim_C3_unknown_type "unknownType" ⟨"unknownType", none, none⟩ rfl
    (by decide) (by decide) (by decide) (by decide)

/-- Claim C4: a valid-signature POST with `_type` `siteSettings` (any
`_id` and any slug object) gets a 200 response with tags
`["siteSettings"]` and paths including `"/ (layout)"`, and the same
layout-wide invalidation fires for `_type` `navigation`. -/
theorem claim_C4_layout_revalidation (i : Option String) (s : Option SanitySlug) :
    ((revalidatePOST true true (some ⟨"siteSettings", i, s⟩)).status = 200 ∧
     (revalidatePOST true true (some ⟨"siteSettings", i, s⟩)).tags = ["siteSettings"] ∧
     "/ (layout)" ∈ (revalidatePOST true true (some ⟨"siteSettings", i, s⟩)).paths) ∧
    ((revalidatePOST true true (some ⟨"navigation", i, s⟩)).status = 200 ∧
     (revalidatePOST true true (some ⟨"navigation", i, s⟩)).tags = ["navigation"] ∧
     "/ (layout)" ∈ (revalidatePOST true true (some ⟨"navigation", i, s⟩)).paths) := by
  have hd1 : detailPathsOf "siteSettings" (slugCurrentOf ⟨"siteSettings", i, s⟩) = [] :=
    detailPathsOf_eq_nil _ (by decide)
  have hd2 : detailPathsOf "navigation" (slugCurrentOf ⟨"navigation", i, s⟩) = [] :=
    detailPathsOf_eq_nil _ (by decide)
  refine ⟨⟨?_, ?_, ?_⟩, ⟨?_, ?_, ?_⟩⟩ <;>
    simp [revalidatePOST, successResponse, hd1, hd2, tagsFor, singletonPathsOf,
      layoutPathsOf, isLayoutType, listingPathsOf, documentTypeToTagsList,
      singletonPathsList, List.lookup]

/-- Claim C6: on any accepted payload (valid signature, nonempty `_type`)
the handler is deterministic and idempotent — it returns 200, and a second
run on the identical payload returns the identical response, including the
identical trace of invalidation calls (the model is a pure function of the
request, so replaying adds no side effects beyond the same busts). -/
theorem claim_C6_idempotent (p : WebhookPayload) (h : p._type ≠ "") :
    (revalidatePOST true true (some p)).status = 200 ∧
    revalidatePOST true true (some p) = revalidatePOST true true (some p) ∧
    (revalidatePOST true true (some p)).calls = (revalidatePOST true true (some p)).calls := by
  exact ⟨by simp [revalidatePOST, h, successResponse], rfl, rfl⟩

/-- Claim C6, witness: the idempotence theorem applied to the blog-post
payload of the webhook scenario. -/
theorem claim_C6_witness :
    (revalidatePOST true true (some ⟨"blogPost", none, some ⟨some "my-post"⟩⟩)).status = 200 ∧
    revalidatePOST true true (some ⟨"blogPost", none, some ⟨some "my-post"⟩⟩) =
      revalidatePOST true true (some ⟨"blogPost", none, some ⟨some "my-post"⟩⟩) ∧
    (revalidatePOST true true (some ⟨"blogPost", none, some ⟨some "my-post"⟩⟩)).calls =
      (revalidatePOST true true (some ⟨"blogPost", none, some ⟨some "my-post"⟩⟩)).calls :=
  claim_C6_idempotent ⟨"blogPost", none, some ⟨some "my-post"⟩⟩ (by decide)

/-- Claim C10: on every accepted payload the response `tags` array equals
exactly the singleton `[_type]` — each of the eight known types maps to
the singleton of its own name, and the unknown-type fallback produces the
same — so its length is always one. -/
theorem claim_C10_tags_singleton (p : WebhookPayload) (h : p._type ≠ "") :
    (revalidatePOST true true (some p)).tags = [p._type] ∧
    (revalidatePOST true true (some p)).tags.length = 1 := by
  have : (revalidatePOST true true (some p)).tags = tagsFor p._type := by
    simp [revalidatePOST, h, successResponse]
  rw [this, tagsFor_self]
  exact ⟨rfl, rfl⟩

/-- Claim C10, witness: a known type (`project`) produces the singleton of
its own name. -/
theorem claim_C10_witness :
    (revalidatePOST true true (some ⟨"project", none, none⟩)).tags = ["project"] ∧
    (revalidatePOST true true (some ⟨"project", none, none⟩)).tags.length = 1 :=
  claim_C10_tags_singleton ⟨"project", none, none⟩ (by decide)

/-! ### Helper lemmas about character-level splitting and digit parsing -/

/-- Splitting never yields an empty list of fields. -/
theorem splitOnChar_ne_nil (sep : Char) (l : List Char) : splitOnChar sep l ≠ [] := by
  cases l with
  | nil => simp [splitOnChar]
  | cons a t =>
    simp only [splitOnChar]
    split
    · simp
    · split <;> simp

/-- A list free of the separator is a single field. -/
theorem splitOnChar_of_not_mem {sep : Char} {l : List Char} (h : sep ∉ l) :
    splitOnChar sep l = [l] := by
  induction l with
  | nil => rfl
  | cons a t ih =>
    have ha : ¬ a = sep := fun e => h (by rw [e]; exact List.mem_cons_self _ _)
    have ht : sep ∉ t := fun hm => h (List.mem_cons_of_mem _ hm)
    simp only [splitOnChar, if_neg ha, ih ht]

/-- Splitting a list that starts with a separator-free prefix followed by
the separator peels off that prefix as the first field. -/
theorem splitOnChar_append {sep : Char} {l₁ l₂ : List Char} (h : sep ∉ l₁) :
    splitOnChar sep (l₁ ++ sep :: l₂) = l₁ :: splitOnChar sep l₂ := by
  induction l₁ with
  | nil => simp [splitOnChar]
  | cons a t ih =>
    have ha : ¬ a = sep := fun e => h (by rw [e]; exact List.mem_cons_self _ _)
    have ht : sep ∉ t := fun hm => h (List.mem_cons_of_mem _ hm)
    simp only [List.cons_append, splitOnChar, List.append_eq, if_neg ha, ih ht]

/-- A nonempty digit string converts to its numeric value. -/
theorem jsNumber_digits {l : List Char} (h1 : l ≠ []) (h2 : ∀ c ∈ l, c.isDigit = true) :
    jsNumber l = some (digitsToNat l) := by
  unfold jsNumber
  rw [if_neg h1, if_pos (List.all_eq_true.mpr h2)]

/-- A character that is not a digit does not occur in a digit string. -/
theorem not_mem_of_digits {l : List Char} (h : ∀ c ∈ l, c.isDigit = true)
    {ch : Char} (hch : ch.isDigit = false) : ch ∉ l := fun hm => by
  have := h ch hm
  rw [hch] at this
  exact Bool.false_ne_true this

/-! ### Claims about `getImageDimensions` -/

/-- Claim C5, counterexample to the original wording: the malformed token
`image-abc-800xzz-jpg` (non-numeric height) does not yield
`{width: 0, height: 0, aspectRatio: 1}` — the width coordinate parses on
its own and survives, giving `{width: 800, height: 0, aspectRatio: 1}`. -/
theorem claim_C5_cex :
    getImageDimensions (some ⟨some ⟨some "image-abc-800xzz-jpg"⟩⟩) = ⟨800, 0, some 1⟩ ∧
    (getImageDimensions (some ⟨some ⟨some "image-abc-800xzz-jpg"⟩⟩)).width ≠ 0 := by
  constructor
  · rfl
  · decide

/-- Claim C5 (amended): a well-formed reference `image-{id}-{W}x{H}-{ext}`
(dash-free id, decimal digit strings `W` and `H`, `H` nonzero) yields
`{width: W, height: H, aspectRatio: W / H}`; a missing image, a missing
asset, a missing reference, and a reference without a nonempty third
dash-separated segment all yield exactly `{width: 0, height: 0,
aspectRatio: 1}`. Other malformed tokens also never throw (the model is a
total function) but degrade per coordinate instead of resetting both, as
the counterexample shows. -/
theorem claim_C5_getImageDimensions :
    (∀ (ident wd hd ext : List Char),
      '-' ∉ ident →
      wd ≠ [] → hd ≠ [] →
      (∀ c ∈ wd, c.isDigit = true) → (∀ c ∈ hd, c.isDigit = true) →
      digitsToNat hd ≠ 0 →
      getImageDimensions (some ⟨some ⟨some (String.mk
          ("image".data ++ '-' :: (ident ++ '-' :: ((wd ++ 'x' :: hd) ++ '-' :: ext))))⟩⟩) =
        ⟨digitsToNat wd, digitsToNat hd,
          some ((digitsToNat wd : ℚ) / (digitsToNat hd : ℚ))⟩) ∧
    getImageDimensions none = ⟨0, 0, some 1⟩ ∧
    getImageDimensions (some ⟨none⟩) = ⟨0, 0, some 1⟩ ∧
    getImageDimensions (some ⟨some ⟨none⟩⟩) = ⟨0, 0, some 1⟩ ∧
    (∀ r : String, (splitOnChar '-' r.data)[2]? = none →
      getImageDimensions (some ⟨some ⟨some r⟩⟩) = ⟨0, 0, some 1⟩) ∧
    (∀ r : String, (splitOnChar '-' r.data)[2]? = some [] →
      getImageDimensions (some ⟨some ⟨some r⟩⟩) = ⟨0, 0, some 1⟩) := by
  refine ⟨?_, rfl, rfl, rfl, ?_, ?_⟩
  · intro ident wd hd ext hid hwne hhne hwd hhd hh0
    have hxw : 'x' ∉ wd := not_mem_of_digits hwd rfl
    have hxh : 'x' ∉ hd := not_mem_of_digits hhd rfl
    have hdw : '-' ∉ wd := not_mem_of_digits hwd rfl
    have hdh : '-' ∉ hd := not_mem_of_digits hhd rfl
    have hdim : '-' ∉ wd ++ 'x' :: hd := by
      intro hm
      rcases List.mem_append.mp hm with hm | hm
      · exact hdw hm
      · rcases List.mem_cons.mp hm with hm | hm
        · exact absurd hm.symm (by decide)
        · exact hdh hm
    have himg : '-' ∉ "image".data := by decide
    have hsplit :
        splitOnChar '-' ("image".data ++ '-' :: (ident ++ '-' :: ((wd ++ 'x' :: hd) ++ '-' :: ext))) =
          "image".data :: ident :: (wd ++ 'x' :: hd) :: splitOnChar '-' ext := by
      rw [splitOnChar_append himg, splitOnChar_append hid, splitOnChar_append hdim]
    have hds : splitOnChar 'x' (wd ++ 'x' :: hd) = [wd, hd] := by
      rw [splitOnChar_append hxw, splitOnChar_of_not_mem hxh]
    have hw : jsNumber wd = some (digitsToNat wd) := jsNumber_digits hwne hwd
    have hhn : jsNumber hd = some (digitsToNat hd) := jsNumber_digits hhne hhd
    have hLne : ("image".data ++ '-' :: (ident ++ '-' :: ((wd ++ 'x' :: hd) ++ '-' :: ext))
        : List Char) ≠ [] := by simp
    have hdimne : wd ++ 'x' :: hd ≠ [] := by simp
    have g2 : ∀ (a b c : List Char) (rest : List (List Char)),
        (a :: b :: c :: rest)[2]? = some c := by intro a b c rest; simp
    have g0 : ∀ (x y : List Char), ([x, y] : List (List Char))[0]? = some x := by
      intro x y; simp
    have g1 : ∀ (x y : List Char), ([x, y] : List (List Char))[1]? = some y := by
      intro x y; simp
    have hred : getImageDimensions (some ⟨some ⟨some (String.mk
        ("image".data ++ '-' :: (ident ++ '-' :: ((wd ++ 'x' :: hd) ++ '-' :: ext))))⟩⟩) =
        dimsOfRef ("image".data ++ '-' :: (ident ++ '-' :: ((wd ++ 'x' :: hd) ++ '-' :: ext))) :=
      rfl
    rw [hred]
    simp only [dimsOfRef, dimsOfToken, if_neg hLne, hsplit, g2, if_neg hdimne, hds,
      g0, g1, Option.some_bind', hw, hhn, Option.getD_some, if_neg hh0]
  · intro r hr
    show dimsOfRef r.data = _
    by_cases hd0 : r.data = []
    · simp [dimsOfRef, hd0]
    · simp [dimsOfRef, hd0, hr]
  · intro r hr
    show dimsOfRef r.data = _
    by_cases hd0 : r.data = []
    · simp [dimsOfRef, hd0]
    · simp [dimsOfRef, hd0, hr]

/-- Claim C5, witness: the well-formed token `image-abc-800x600-jpg`
yields width 800, height 600 and the exact aspect ratio `800 / 600`. -/
theorem claim_C5_witness :
    getImageDimensions (some ⟨some ⟨some "image-abc-800x600-jpg"⟩⟩) =
      ⟨800, 600, some ((800 : ℚ) / 600)⟩ := by
  have h := claim_C5_getImageDimensions.1 "abc".data "800".data "600".data "jpg".data
    (by decide) (by decide) (by decide) (by decide) (by decide) (by decide)
  refine h.trans ?_
  have e1 : digitsToNat "800".data = 800 := rfl
  have e2 : digitsToNat "600".data = 600 := rfl
  rw [e1, e2]
  norm_num

/-! ### Claim about `sanityFetch` -/

/-- Claim C7: `sanityFetch` passes exactly the given query and parameters
to the underlying client and returns its result unchanged; an omitted
freshness window defaults to 60; omitted parameters and tags default to
`{}` and `[]`; and a client failure propagates unmodified (the wrapper
adds no retry, timeout or fallback). -/
theorem claim_C7_sanityFetch {T : Type}
    (clientFetch : String → QueryParams → FetchOptions → Except String T)
    (q : String) (p : QueryParams) (r : Option Nat) (t : List String) :
    sanityFetch clientFetch ⟨q, some p, some r, some t⟩ = clientFetch q p ⟨r, t⟩ ∧
    sanityFetch clientFetch ⟨q, some p, none, some t⟩ = clientFetch q p ⟨some 60, t⟩ ∧
    sanityFetch clientFetch ⟨q, none, none, none⟩ = clientFetch q [] ⟨some 60, []⟩ ∧
    (∀ e : String, clientFetch q p ⟨r, t⟩ = Except.error e →
      sanityFetch clientFetch ⟨q, some p, some r, some t⟩ = Except.error e) := by
  refine ⟨rfl, rfl, rfl, ?_⟩
  intro e he
  simpa [sanityFetch] using he

/-- Claim C7, witness: a client that fails with a network error propagates
that very error through `sanityFetch`. -/
theorem claim_C7_witness :
    sanityFetch (fun (_ : String) (_ : QueryParams) (_ : FetchOptions) =>
        (Except.error "network failure" : Except String Nat))
      ⟨"someQuery", some [], some (some 60), some []⟩ = Except.error "network failure" :=
  (claim_C7_sanityFetch
      (fun _ _ _ => (Except.error "network failure" : Except String Nat))
      "someQuery" [] (some 60) []).2.2.2 "network failure" rfl

/-! ### Helper lemmas about sorted heads -/

/-- The head of a stable sort, when it exists, is an element of the input
that the order relation places below every input element. -/
theorem head_insertionSort_min {α : Type} (r : α → α → Prop) [DecidableRel r]
    [IsTotal α r] [IsTrans α r] {l : List α} {x : α}
    (h : (l.insertionSort r).head? = some x) : x ∈ l ∧ ∀ y ∈ l, r x y := by
  have hs : List.Sorted r (l.insertionSort r) := List.sorted_insertionSort r l
  obtain ⟨t, ht⟩ : ∃ t, l.insertionSort r = x :: t := by
    cases hl : l.insertionSort r with
    | nil => rw [hl] at h; exact absurd h (by simp)
    | cons a t =>
      rw [hl] at h
      simp only [List.head?_cons, Option.some.injEq] at h
      exact ⟨t, by rw [h]⟩
  constructor
  · have : x ∈ l.insertionSort r := by rw [ht]; exact List.mem_cons_self _ _
    exact (List.mem_insertionSort r).mp this
  · intro y hy
    have hy' : y ∈ l.insertionSort r := (List.mem_insertionSort r).mpr hy
    rw [ht] at hy' hs
    rcases List.mem_cons.mp hy' with rfl | hy''
    · exact (total_of r y y).elim id id
    · exact List.rel_of_sorted_cons hs y hy''

/-- The head of a sort is absent exactly when the input is empty. -/
theorem head_insertionSort_none {α : Type} (r : α → α → Prop) [DecidableRel r]
    {l : List α} : (l.insertionSort r).head? = none ↔ l = [] := by
  constructor
  · intro h
    have he : l.insertionSort r = [] := by
      cases hl : l.insertionSort r with
      | nil => rfl
      | cons a t => rw [hl] at h; exact absurd h (by simp)
    have := List.perm_insertionSort r l
    rw [he] at this
    exact this.symm.eq_nil
  · intro h
    rw [h]
    rfl

/-! ### Claims about the GROQ queries -/

/-- Claim C8, counterexample to the original wording: in a dataset where
two project documents share the slug `s`, asking for the neighbours of
the older one returns as `previous` a document whose slug is the
excluded slug — the `previous` filter has no `slug.current != $slug`
clause, so the `excludeSlug` parameter is not honored for that sibling. -/
theorem claim_C8_cex :
    (adjacentProjects [⟨"s", "2024-01-01"⟩, ⟨"s", "2024-02-01"⟩] "2024-01-01" "s").1 =
      some ⟨"s", "2024-02-01"⟩ ∧
    ((adjacentProjects [⟨"s", "2024-01-01"⟩, ⟨"s", "2024-02-01"⟩] "2024-01-01" "s").1).map
        Project.slug = some "s" := by
  decide

/-- Claim C8 (amended): when slugs are unique in the dataset and the
reference date/slug pair comes from an existing project, `previous` is a
sibling with the smallest date strictly greater than the reference date,
`next` is a sibling with the largest date strictly less than it (the
explicit `excludeSlug` filter applies only to `next`; `previous` avoids
the reference document through the strict date comparison alone), each is
`none` exactly when no such sibling exists, and neither branch returns a
document carrying the excluded slug. -/
theorem claim_C8_adjacent (ds : List Project) (refDate exSlug : String)
    (huniq : ∀ a ∈ ds, ∀ b ∈ ds, a.slug = b.slug → a = b)
    (p0 : Project) (hp0 : p0 ∈ ds) (hslug : p0.slug = exSlug) (hdate : p0.date = refDate) :
    (∀ p, (adjacentProjects ds refDate exSlug).1 = some p →
      p ∈ ds ∧ dateLt refDate p.date ∧ p.slug ≠ exSlug ∧
        ∀ q ∈ ds, dateLt refDate q.date → dateLe p.date q.date) ∧
    ((adjacentProjects ds refDate exSlug).1 = none ↔ ∀ q ∈ ds, ¬ dateLt refDate q.date) ∧
    (∀ p, (adjacentProjects ds refDate exSlug).2 = some p →
      p ∈ ds ∧ dateLt p.date refDate ∧ p.slug ≠ exSlug ∧
        ∀ q ∈ ds, dateLt q.date refDate → q.slug ≠ exSlug → dateLe q.date p.date) ∧
    ((adjacentProjects ds refDate exSlug).2 = none ↔
      ∀ q ∈ ds, dateLt q.date refDate → q.slug = exSlug) := by
  refine ⟨?_, ?_, ?_, ?_⟩
  · intro p hp
    have hp' : ((ds.filter fun p => dateLt refDate p.date).insertionSort projAsc).head? =
        some p := hp
    obtain ⟨hmem, hmin⟩ := head_insertionSort_min projAsc hp'
    rw [List.mem_filter] at hmem
    obtain ⟨hpds, hplt⟩ := hmem
    have hplt' : dateLt refDate p.date := by simpa using hplt
    refine ⟨hpds, hplt', ?_, ?_⟩
    · intro he
      have hpp0 : p = p0 := huniq p hpds p0 hp0 (he.trans hslug.symm)
      rw [hpp0, hdate] at hplt'
      exact lt_irrefl _ hplt'
    · intro q hq hlt
      exact hmin q (List.mem_filter.mpr ⟨hq, by simpa using hlt⟩)
  · have he : ((adjacentProjects ds refDate exSlug).1 = none) ↔
        (ds.filter fun p => dateLt refDate p.date) = [] := head_insertionSort_none projAsc
    rw [he, List.filter_eq_nil_iff]
    simp
  · intro p hp
    have hp' : ((ds.filter fun p => dateLt p.date refDate ∧ p.slug ≠ exSlug).insertionSort
        projDesc).head? = some p := hp
    obtain ⟨hmem, hmin⟩ := head_insertionSort_min projDesc hp'
    rw [List.mem_filter] at hmem
    obtain ⟨hpds, hcond⟩ := hmem
    have hcond' : dateLt p.date refDate ∧ p.slug ≠ exSlug := by simpa using hcond
    refine ⟨hpds, hcond'.1, hcond'.2, ?_⟩
    · intro q hq hlt hne
      exact hmin q (List.mem_filter.mpr ⟨hq, by simpa using ⟨hlt, hne⟩⟩)
  · have he : ((adjacentProjects ds refDate exSlug).2 = none) ↔
        (ds.filter fun p => dateLt p.date refDate ∧ p.slug ≠ exSlug) = [] :=
      head_insertionSort_none projDesc
    rw [he, List.filter_eq_nil_iff]
    constructor
    · intro h q hq hlt
      by_contra hne
      have hq' := h q hq
      rw [decide_eq_true_eq] at hq'
      exact hq' ⟨hlt, hne⟩
    · intro h q hq
      rw [decide_eq_true_eq]
      rintro ⟨hlt, hne⟩
      exact hne (h q hq hlt)

/-- Claim C8, witness: in a three-project dataset with unique slugs, the
neighbours of the middle project satisfy the amended description — the
`previous` sibling is the strictly newer project and does not carry the
excluded slug. -/
theorem claim_C8_witness :
    (adjacentProjects [⟨"a", "2024-01-01"⟩, ⟨"b", "2024-02-01"⟩, ⟨"c", "2024-03-01"⟩]
        "2024-02-01" "b").1 = some ⟨"c", "2024-03-01"⟩ ∧
    (⟨"c", "2024-03-01"⟩ : Project).slug ≠ "b" ∧
    dateLt "2024-02-01" (⟨"c", "2024-03-01"⟩ : Project).date := by
  have h := (claim_C8_adjacent
      [⟨"a", "2024-01-01"⟩, ⟨"b", "2024-02-01"⟩, ⟨"c", "2024-03-01"⟩]
      "2024-02-01" "b" (by decide) ⟨"b", "2024-02-01"⟩ (by decide) rfl rfl).1
      ⟨"c", "2024-03-01"⟩ (by decide)
  exact ⟨by decide, h.2.2.1, h.2.1⟩

/-- Claim C9: for valid pagination bounds with `start < stop`, the
blog-post listing returns at most `stop - start` items, they are ordered
by publish date descending, every returned item is a dataset item, and a
`start` at or beyond the available count yields the empty list rather
than an error (the model is a total function). -/
theorem claim_C9_paginated (ds : List BlogPost) (start stop : Nat) (h : start < stop) :
    (blogPosts ds start stop).length ≤ stop - start ∧
    List.Sorted postDesc (blogPosts ds start stop) ∧
    (∀ p ∈ blogPosts ds start stop, p ∈ ds) ∧
    (ds.length ≤ start → blogPosts ds start stop = []) := by
  refine ⟨?_, ?_, ?_, ?_⟩
  · unfold blogPosts
    rw [List.length_take]
    exact min_le_left _ _
  · have hs : List.Sorted postDesc (ds.insertionSort postDesc) :=
      List.sorted_insertionSort postDesc ds
    have hsub : List.Sublist (blogPosts ds start stop) (ds.insertionSort postDesc) :=
      (List.take_sublist _ _).trans (List.drop_sublist _ _)
    exact List.Pairwise.sublist hsub hs
  · intro p hp
    have hsub : List.Sublist (blogPosts ds start stop) (ds.insertionSort postDesc) :=
      (List.take_sublist _ _).trans (List.drop_sublist _ _)
    exact (List.mem_insertionSort postDesc).mp (hsub.subset hp)
  · intro hlen
    unfold blogPosts
    rw [List.drop_eq_nil_of_le, List.take_nil]
    rw [(List.perm_insertionSort postDesc ds).length_eq]
    exact hlen

/-- Claim C9, witness: slicing a three-post dataset with the window
`[0, 2)` returns at most two posts in descending publish order. -/
theorem claim_C9_witness :
    (blogPosts [⟨"p1", "2024-01-01"⟩, ⟨"p2", "2024-03-01"⟩, ⟨"p3", "2024-02-01"⟩] 0 2).length ≤ 2 ∧
    List.Sorted postDesc
      (blogPosts [⟨"p1", "2024-01-01"⟩, ⟨"p2", "2024-03-01"⟩, ⟨"p3", "2024-02-01"⟩] 0 2) := by
  have h := claim_C9_paginated
    [⟨"p1", "2024-01-01"⟩, ⟨"p2", "2024-03-01"⟩, ⟨"p3", "2024-02-01"⟩] 0 2 (by decide)
  exact ⟨h.1, h.2.1⟩

end Portfolio
